import Mathlib

/-!
Computer-JS: a gate-level one-bit CPU simulator

Shallow embedding of `src/index.js`.

JavaScript values that flow through the simulator are modelled by `Val`: an
integer-valued number, or `undefined` (what an out-of-range array index
yields).  JavaScript arrays of such values are `List Val`.  The bitwise
operators `&`, `|`, `^` convert their operands with ToInt32 (`undefined`
becomes 0, a number is wrapped into the signed 32-bit range), which is
modelled by `Val.toInt32` with an explicit `% 2^32`.

Stateful components (closures over `let`/`const` cells in the source) are
structures holding the cells' contents; a method that mutates returns the
new state.  A method that can throw returns `Except`.
-/

namespace ComputerJS

/-! ## JavaScript values -/

/-- A JavaScript value: `undefined` or an integer-valued number. -/
inductive Val where
  | undef : Val
  | num (n : Int) : Val
deriving DecidableEq, Repr

namespace Val

/-- ToInt32 on an integer: wrap into the signed 32-bit range. -/
def wrap32 (n : Int) : Int :=
  let m := n % 2 ^ 32
  if m ≥ 2 ^ 31 then m - 2 ^ 32 else m

/-- ToInt32 of a value (`undefined` converts to NaN, hence to 0). -/
def toInt32 : Val → Int
  | undef => 0
  | num n => wrap32 n

/-- The 32 two's-complement bits of a value after ToInt32, as a natural
number below `2^32`. -/
def bits32 (v : Val) : Nat := (v.toInt32 % 2 ^ 32).toNat

/-- The number whose 32 two's-complement bits are `k`. -/
def ofBits32 (k : Nat) : Val := num (wrap32 (Int.ofNat k))

/-- ToBoolean of a value: `undefined` and `0` are falsy. -/
def truthy : Val → Bool
  | undef => false
  | num n => decide (n ≠ 0)

/-- The number 0 or 1 that represents a boolean as a bit. -/
def bit (p : Bool) : Val := num (if p then 1 else 0)

/-- A value is a bit when it is the number 0 or the number 1. -/
def IsBit (v : Val) : Prop := v = num 0 ∨ v = num 1

instance (v : Val) : Decidable (IsBit v) := by
  unfold IsBit; infer_instance

end Val

/-- Array indexing `xs[i]` for a constant index: `undefined` past the end. -/
def idx (xs : List Val) (i : Nat) : Val := xs.getD i Val.undef

/-! ## Logic gates (index.js lines 4-7) -/

/-- `function NOT(a) { return a ? 0 : 1 }` -/
def NOT (a : Val) : Val := if a.truthy then Val.num 0 else Val.num 1

/-- `function AND(a, b) { return a & b }` -/
def AND (a b : Val) : Val := Val.ofBits32 (Nat.land a.bits32 b.bits32)

/-- `function OR(a, b) { return a | b }` -/
def OR (a b : Val) : Val := Val.ofBits32 (Nat.lor a.bits32 b.bits32)

/-- `function XOR(a, b) { return a ^ b }` -/
def XOR (a b : Val) : Val := Val.ofBits32 (Nat.xor a.bits32 b.bits32)


/-- The exception a JavaScript engine raises when a property of `undefined`
is read (`undefined[0]`, `undefined.load`). -/
inductive Err where
  | typeError : Err
deriving DecidableEq, Repr

deriving instance DecidableEq for Except

/-! ## D flip-flop (index.js lines 12-18) -/

/-- The closure cell `q` of one flip-flop. -/
structure DFlipFlop where
  q : Val
deriving DecidableEq, Repr

namespace DFlipFlop

/-- `let q = 0` -/
def new : DFlipFlop := ⟨Val.num 0⟩

/-- `clock: (d, clk) => { if (clk === 1) q = d }` -/
def clock (f : DFlipFlop) (d clk : Val) : DFlipFlop :=
  if clk = Val.num 1 then { f with q := d } else f

/-- `read: () => q` -/
def read (f : DFlipFlop) : Val := f.q

end DFlipFlop

/-! ## 4-bit register (index.js lines 23-39) -/

/-- The constant array `ff` of four flip-flops. -/
structure Register4 where
  ff0 : DFlipFlop
  ff1 : DFlipFlop
  ff2 : DFlipFlop
  ff3 : DFlipFlop
deriving DecidableEq, Repr

namespace Register4

/-- Four fresh flip-flops. -/
def new : Register4 := ⟨DFlipFlop.new, DFlipFlop.new, DFlipFlop.new, DFlipFlop.new⟩

/-- The flip-flop `ff[i]`. -/
def ff (r : Register4) : Fin 4 → DFlipFlop
  | 0 => r.ff0
  | 1 => r.ff1
  | 2 => r.ff2
  | 3 => r.ff3

/-- The register in which `ff[i]` has been clocked: `ff[i].clock(d, clk)`. -/
def clockAt (r : Register4) (i : Fin 4) (d clk : Val) : Register4 :=
  match i with
  | 0 => { r with ff0 := r.ff0.clock d clk }
  | 1 => { r with ff1 := r.ff1.clock d clk }
  | 2 => { r with ff2 := r.ff2.clock d clk }
  | 3 => { r with ff3 := r.ff3.clock d clk }

/-- `for (let i = 0; i < 4; i++) ff[i].clock(bits[i], clk)` -/
def load (r : Register4) (bits : List Val) (clk : Val) : Register4 :=
  ([0, 1, 2, 3] : List (Fin 4)).foldl (fun r i => r.clockAt i (idx bits i.val) clk) r

/-- `return ff.map(f => f.read())` -/
def read (r : Register4) : List Val :=
  ([0, 1, 2, 3] : List (Fin 4)).map (fun i => (r.ff i).read)

end Register4

/-! ## Full adder (index.js lines 44-53) -/

/-- The object `{ sum, cout }` returned by `FullAdder`. -/
structure AdderOut where
  sum : Val
  cout : Val
deriving DecidableEq, Repr

/-- `function FullAdder(a, b, cin)` -/
def FullAdder (a b cin : Val) : AdderOut :=
  let s1 := XOR a b
  let sum := XOR s1 cin
  let c1 := AND a b
  let c2 := AND s1 cin
  let cout := OR c1 c2
  { sum := sum, cout := cout }

/-! ## 1-bit ALU (index.js lines 63-78) -/

/-- The object `{ result, cout }` returned by `ALU1`. -/
structure AluOut where
  result : Val
  cout : Val
deriving DecidableEq, Repr

/-- `function ALU1(a, b, cin, op)` -/
def ALU1 (a b cin : Val) (op : List Val) : AluOut :=
  let andO := AND a b
  let orO := OR a b
  let xorO := XOR a b
  let add := FullAdder a b cin
  let r0 := AND andO (AND (NOT (idx op 0)) (NOT (idx op 1)))
  let r1 := AND orO (AND (NOT (idx op 0)) (idx op 1))
  let r2 := AND add.sum (AND (idx op 0) (NOT (idx op 1)))
  let r3 := AND xorO (AND (idx op 0) (idx op 1))
  { result := OR (OR r0 r1) (OR r2 r3), cout := add.cout }

/-! ## 4x4 RAM (index.js lines 83-99) -/

/-- The constant array `mem` of four registers. -/
structure RAM4 where
  mem0 : Register4
  mem1 : Register4
  mem2 : Register4
  mem3 : Register4
deriving DecidableEq, Repr

namespace RAM4

/-- Four fresh registers. -/
def new : RAM4 := ⟨Register4.new, Register4.new, Register4.new, Register4.new⟩

/-- The element of a four-element array that the value `addr` designates,
if any: `mem[addr]` is an element exactly when `addr` is one of the numbers
0, 1, 2, 3 and is `undefined` otherwise. -/
def sel (addr : Val) : Option (Fin 4) :=
  match addr with
  | Val.undef => none
  | Val.num n => if h : 0 ≤ n ∧ n < 4 then some ⟨n.toNat, by omega⟩ else none

/-- The register `mem[i]`. -/
def mem (m : RAM4) : Fin 4 → Register4
  | 0 => m.mem0
  | 1 => m.mem1
  | 2 => m.mem2
  | 3 => m.mem3

/-- The RAM in which `mem[i]` has state `r`. -/
def setMem (m : RAM4) (i : Fin 4) (r : Register4) : RAM4 :=
  match i with
  | 0 => { m with mem0 := r }
  | 1 => { m with mem1 := r }
  | 2 => { m with mem2 := r }
  | 3 => { m with mem3 := r }

/-- `write(addr, data, clk) { mem[addr].load(data, clk) }`: calling `load`
on `undefined` throws. -/
def write (m : RAM4) (addr : Val) (data : List Val) (clk : Val) : Except Err RAM4 :=
  match sel addr with
  | none => Except.error Err.typeError
  | some i => Except.ok (m.setMem i ((m.mem i).load data clk))

/-- `read(addr) { return mem[addr].read() }`: calling `read` on `undefined`
throws. -/
def read (m : RAM4) (addr : Val) : Except Err (List Val) :=
  match sel addr with
  | none => Except.error Err.typeError
  | some i => Except.ok (m.mem i).read

end RAM4

/-! ## 8x8 ROM (index.js lines 104-122) -/

namespace ROM8

/-- The program table `rom`. -/
def rom : List (List Val) :=
  ([ [0,0, 0,0, 0,0,0,0],   -- LOAD RAM[0] → A
     [1,0, 0,0, 0,0,0,0],   -- ADD A+B
     [0,1, 0,1, 0,0,0,0],   -- STORE A → RAM[1]
     [1,1, 0,0, 0,0,0,0],   -- XOR A,B
     [0,0, 0,0, 0,0,0,0],
     [0,0, 0,0, 0,0,0,0],
     [0,0, 0,0, 0,0,0,0],
     [0,0, 0,0, 0,0,0,0] ] : List (List Int)).map (fun w => w.map Val.num)

/-- `read(addr) { return rom[addr] }`: `none` stands for `undefined`, the
result of indexing the array with anything but one of its indices. -/
def read (addr : Val) : Option (List Val) :=
  match addr with
  | Val.undef => none
  | Val.num n => if 0 ≤ n then rom[n.toNat]? else none

end ROM8

/-! ## Control unit (index.js lines 127-134) -/

/-- The object of four control signals returned by `ControlUnit`. -/
structure Ctrl where
  LOAD : Val
  STORE : Val
  ADD : Val
  XOR : Val
deriving DecidableEq, Repr

/-- `function ControlUnit(op)` -/
def ControlUnit (op : List Val) : Ctrl :=
  { LOAD := AND (NOT (idx op 0)) (NOT (idx op 1)),
    STORE := AND (NOT (idx op 0)) (idx op 1),
    ADD := AND (idx op 0) (NOT (idx op 1)),
    XOR := AND (idx op 0) (idx op 1) }

/-! ## CPU (index.js lines 139-195) -/

/-- The mutable cells a CPU closure owns: the flip-flops `A`, `B`, `PC` and
the RAM.  The ROM is the constant `ROM8.rom`; `clk` is never reassigned. -/
structure CPU where
  A : DFlipFlop
  B : DFlipFlop
  PC : DFlipFlop
  ram : RAM4
deriving DecidableEq, Repr

/-- What `debug()` prints. -/
structure Observed where
  A : Val
  B : Val
  PC : Val
  RAM0 : Val
  RAM1 : Val
deriving DecidableEq, Repr

/-- An exception escaping `step()`, with the machine state at the moment it
was thrown. -/
structure Fault where
  err : Err
  state : CPU
deriving DecidableEq, Repr

namespace CPU

/-- `let clk = 1` -/
def clk : Val := Val.num 1

/-- The constructor body: fresh components, then the two preload writes. -/
def new : Except Err CPU := do
  let A := DFlipFlop.new
  let B := DFlipFlop.new
  let PC := DFlipFlop.new
  let ram := RAM4.new
  let ram ← ram.write (Val.num 0) [Val.num 1, Val.num 0, Val.num 0, Val.num 0] clk
  let ram ← ram.write (Val.num 1) [Val.num 0, Val.num 0, Val.num 0, Val.num 0] clk
  pure { A := A, B := B, PC := PC, ram := ram }

/-- `if (ctrl.LOAD) { const data = ram.read(addr); A.clock(data[0], clk) }` -/
def execLOAD (c : CPU) (ctrl : Ctrl) (addr : Val) : Except Fault CPU :=
  if ctrl.LOAD.truthy then
    match c.ram.read addr with
    | Except.error e => Except.error ⟨e, c⟩
    | Except.ok data => Except.ok { c with A := c.A.clock (idx data 0) clk }
  else Except.ok c

/-- `if (ctrl.ADD) { const alu = ALU1(A.read(), B.read(), 0, [1,0]);
A.clock(alu.result, clk) }` -/
def execADD (c : CPU) (ctrl : Ctrl) : CPU :=
  if ctrl.ADD.truthy then
    let alu := ALU1 c.A.read c.B.read (Val.num 0) [Val.num 1, Val.num 0]
    { c with A := c.A.clock alu.result clk }
  else c

/-- `if (ctrl.XOR) { const alu = ALU1(A.read(), B.read(), 0, [1,1]);
A.clock(alu.result, clk) }` -/
def execXOR (c : CPU) (ctrl : Ctrl) : CPU :=
  if ctrl.XOR.truthy then
    let alu := ALU1 c.A.read c.B.read (Val.num 0) [Val.num 1, Val.num 1]
    { c with A := c.A.clock alu.result clk }
  else c

/-- `if (ctrl.STORE) { ram.write(addr, [A.read(),0,0,0], clk) }` -/
def execSTORE (c : CPU) (ctrl : Ctrl) (addr : Val) : Except Fault CPU :=
  if ctrl.STORE.truthy then
    match c.ram.write addr [c.A.read, Val.num 0, Val.num 0, Val.num 0] clk with
    | Except.error e => Except.error ⟨e, c⟩
    | Except.ok ram => Except.ok { c with ram := ram }
  else Except.ok c

/-- The method `step()`: fetch, decode, control, execute, PC update.
Reading `instr[0]` throws when the fetched word is `undefined`. -/
def step (c : CPU) : Except Fault CPU :=
  let pc := c.PC.read
  match ROM8.read pc with
  | none => Except.error ⟨Err.typeError, c⟩
  | some instr =>
    let opcode := [idx instr 0, idx instr 1]
    let addr := OR (idx instr 3) (AND (idx instr 2) (Val.num 1))
    let ctrl := ControlUnit opcode
    match c.execLOAD ctrl addr with
    | Except.error f => Except.error f
    | Except.ok c1 =>
      let c2 := c1.execADD ctrl
      let c3 := c2.execXOR ctrl
      match c3.execSTORE ctrl addr with
      | Except.error f => Except.error f
      | Except.ok c4 => Except.ok { c4 with PC := c4.PC.clock (XOR pc (Val.num 1)) clk }

/-- The control signals `step()` derives in state `c`: the decode of the
opcode field of the word fetched at the PC (`none` when the fetch yields
`undefined`). -/
def ctrlOf (c : CPU) : Option Ctrl :=
  (ROM8.read c.PC.read).map (fun instr => ControlUnit [idx instr 0, idx instr 1])

/-- Every stored data bit of the state (A, B and the sixteen RAM bits) is
0 or 1. -/
def BitState (c : CPU) : Prop :=
  c.A.q.IsBit ∧ c.B.q.IsBit ∧ ∀ i j : Fin 4, ((c.ram.mem i).ff j).q.IsBit

instance (c : CPU) : Decidable c.BitState := by
  unfold BitState; infer_instance

/-- The method `debug()`: the observed tuple. -/
def debug (c : CPU) : Except Err Observed := do
  let w0 ← c.ram.read (Val.num 0)
  let w1 ← c.ram.read (Val.num 1)
  pure { A := c.A.read, B := c.B.read, PC := c.PC.read, RAM0 := idx w0 0, RAM1 := idx w1 0 }

/-- The state after `n` successive calls of `step()`. -/
def run : Nat → CPU → Except Fault CPU
  | 0, c => Except.ok c
  | n + 1, c =>
    match c.step with
    | Except.error f => Except.error f
    | Except.ok c1 => run n c1

/-- The driver (index.js lines 200-210): construct, then `n` steps, then
`debug()`.  Any exception is reported as its kind. -/
def trace (n : Nat) : Except Err Observed :=
  match new with
  | Except.error e => Except.error e
  | Except.ok c =>
    match run n c with
    | Except.error f => Except.error f.err
    | Except.ok c1 => c1.debug

/-- A state is reachable when the constructor followed by some number of
calls of `step()` produces it. -/
def Reachable (c : CPU) : Prop :=
  ∃ c0 n, new = Except.ok c0 ∧ run n c0 = Except.ok c

end CPU

/-- The state with A = `a`, B = 0, PC = `k` and the RAM as the constructor
preloads it (`RAM[0] = [1,0,0,0]`, the other words zero). -/
def CPU.cell (a k : Int) : CPU :=
  { A := ⟨Val.num a⟩, B := ⟨Val.num 0⟩, PC := ⟨Val.num k⟩,
    ram := ⟨⟨⟨Val.num 1⟩, ⟨Val.num 0⟩, ⟨Val.num 0⟩, ⟨Val.num 0⟩⟩,
      Register4.new, Register4.new, Register4.new⟩ }

/-- The cells of the RAM after the call `write(addr, data, clk)`, whether it
returned or threw: the throw happens while `mem[addr].load` is evaluated,
before any flip-flop is clocked, so the cells are then those before the
call. -/
def RAM4.afterWrite (m : RAM4) (addr : Val) (data : List Val) (clk : Val) : RAM4 :=
  match m.write addr data clk with
  | Except.ok m1 => m1
  | Except.error _ => m

/-! ## Auxiliary lemmas -/

/-- Loading at clock level 1 stores the four indexed values. -/
lemma Register4.read_load_one (r : Register4) (bits : List Val) :
    (r.load bits (Val.num 1)).read = [idx bits 0, idx bits 1, idx bits 2, idx bits 3] := by
  simp [Register4.load, Register4.read, Register4.clockAt, Register4.ff,
    DFlipFlop.clock, DFlipFlop.read]
  rfl

/-- Loading at clock level 0 leaves the register as it was. -/
lemma Register4.load_zero (r : Register4) (bits : List Val) :
    r.load bits (Val.num 0) = r := by
  simp [Register4.load, Register4.clockAt, DFlipFlop.clock]

/-- Loading at any clock level other than 1 leaves the register as it was. -/
lemma Register4.load_of_ne_one (r : Register4) (bits : List Val) (clk : Val)
    (h : clk ≠ Val.num 1) : r.load bits clk = r := by
  simp [Register4.load, Register4.clockAt, DFlipFlop.clock, h]

/-- Anything but the numbers 0..3 designates no element. -/
lemma RAM4.sel_none (addr : Val) (h : ∀ n : Int, 0 ≤ n ∧ n < 4 → addr ≠ Val.num n) :
    RAM4.sel addr = none := by
  cases addr with
  | undef => rfl
  | num n =>
    have hn : ¬ (0 ≤ n ∧ n < 4) := fun hn => h n hn rfl
    simp [RAM4.sel, hn]

/-- A list of four values is the list of its four indexed values. -/
lemma idx_four (bits : List Val) (h : bits.length = 4) :
    [idx bits 0, idx bits 1, idx bits 2, idx bits 3] = bits := by
  match bits, h with
  | [a, b, c, d], _ => rfl

/-- Reading back the register just replaced. -/
lemma RAM4.mem_setMem_same (m : RAM4) (i : Fin 4) (r : Register4) :
    (m.setMem i r).mem i = r := by
  fin_cases i <;> rfl

/-- Replacing one register leaves the others. -/
lemma RAM4.mem_setMem_other (m : RAM4) (i j : Fin 4) (r : Register4) (h : j ≠ i) :
    (m.setMem i r).mem j = m.mem j := by
  fin_cases i <;> fin_cases j <;> first | rfl | exact absurd rfl h

/-- Replacing a register by itself changes nothing. -/
lemma RAM4.setMem_mem (m : RAM4) (i : Fin 4) : m.setMem i (m.mem i) = m := by
  fin_cases i <;> rfl

/-- The numbers 0..3 designate the corresponding elements. -/
lemma RAM4.sel_num (n : Int) (h : 0 ≤ n ∧ n < 4) :
    RAM4.sel (Val.num n) = some ⟨n.toNat, by omega⟩ := by
  simp [RAM4.sel, h]

/-- The word fetched at address 0. -/
lemma ROM8.read_zero : ROM8.read (Val.num 0) = some [Val.num 0, Val.num 0, Val.num 0,
    Val.num 0, Val.num 0, Val.num 0, Val.num 0, Val.num 0] := by
  decide

/-- The word fetched at address 1. -/
lemma ROM8.read_one : ROM8.read (Val.num 1) = some [Val.num 1, Val.num 0, Val.num 0,
    Val.num 0, Val.num 0, Val.num 0, Val.num 0, Val.num 0] := by
  decide

/-- With the PC at 0, `step()` loads bit 0 of `RAM[0]` into A and sets the PC
to 1. -/
lemma CPU.step_pc0 (A B : DFlipFlop) (ram : RAM4) :
    CPU.step ⟨A, B, ⟨Val.num 0⟩, ram⟩
      = Except.ok ⟨⟨idx (ram.mem 0).read 0⟩, B, ⟨Val.num 1⟩, ram⟩ := by
  have hc : ControlUnit [Val.num 0, Val.num 0]
      = ⟨Val.num 1, Val.num 0, Val.num 0, Val.num 0⟩ := by decide
  have ha : OR (Val.num 0) (AND (Val.num 0) (Val.num 1)) = Val.num 0 := by decide
  have hx : XOR (Val.num 0) (Val.num 1) = Val.num 1 := by decide
  simp [CPU.step, DFlipFlop.read, ROM8.read_zero, idx, hc, ha, hx, CPU.execLOAD,
    CPU.execADD, CPU.execXOR, CPU.execSTORE, Val.truthy, RAM4.read, RAM4.sel, CPU.clk,
    DFlipFlop.clock]

/-- With the PC at 1, `step()` writes the ALU's ADD result to A and sets the
PC to 0. -/
lemma CPU.step_pc1 (A B : DFlipFlop) (ram : RAM4) :
    CPU.step ⟨A, B, ⟨Val.num 1⟩, ram⟩
      = Except.ok ⟨⟨(ALU1 A.read B.read (Val.num 0) [Val.num 1, Val.num 0]).result⟩, B,
          ⟨Val.num 0⟩, ram⟩ := by
  have hc : ControlUnit [Val.num 1, Val.num 0]
      = ⟨Val.num 0, Val.num 0, Val.num 1, Val.num 0⟩ := by decide
  have ha : OR (Val.num 0) (AND (Val.num 0) (Val.num 1)) = Val.num 0 := by decide
  have hx : XOR (Val.num 1) (Val.num 1) = Val.num 0 := by decide
  simp [CPU.step, DFlipFlop.read, ROM8.read_one, idx, hc, ha, hx, CPU.execLOAD,
    CPU.execADD, CPU.execXOR, CPU.execSTORE, Val.truthy, CPU.clk, DFlipFlop.clock]

/-- The four instruction words of the program. -/
lemma ROM8.read_cases (n : Int) (h : 0 ≤ n ∧ n < 8) :
    ((n = 0 ∨ n = 4 ∨ n = 5 ∨ n = 6 ∨ n = 7) ∧ ROM8.read (Val.num n) = some [Val.num 0,
      Val.num 0, Val.num 0, Val.num 0, Val.num 0, Val.num 0, Val.num 0, Val.num 0]) ∨
    (n = 1 ∧ ROM8.read (Val.num n) = some [Val.num 1, Val.num 0, Val.num 0, Val.num 0,
      Val.num 0, Val.num 0, Val.num 0, Val.num 0]) ∨
    (n = 2 ∧ ROM8.read (Val.num n) = some [Val.num 0, Val.num 1, Val.num 0, Val.num 1,
      Val.num 0, Val.num 0, Val.num 0, Val.num 0]) ∨
    (n = 3 ∧ ROM8.read (Val.num n) = some [Val.num 1, Val.num 1, Val.num 0, Val.num 0,
      Val.num 0, Val.num 0, Val.num 0, Val.num 0]) := by
  obtain ⟨h0, h8⟩ := h
  interval_cases n <;> decide

/-- Outside 0..7 the fetch yields `undefined`. -/
lemma ROM8.read_none (a : Val) (h : ∀ n : Int, 0 ≤ n ∧ n < 8 → a ≠ Val.num n) :
    ROM8.read a = none := by
  cases a with
  | undef => rfl
  | num n =>
    simp only [ROM8.read]
    split_ifs with h0
    · have h8 : ¬ n < 8 := fun h8 => h n ⟨h0, h8⟩ rfl
      have hlen : ROM8.rom.length = 8 := by decide
      apply List.getElem?_eq_none
      omega
    · rfl

/-- A fetched LOAD word: `step()` copies bit 0 of `RAM[0]` to A and toggles
the low bit of the PC. -/
lemma CPU.step_of_load (c : CPU) (h : ROM8.read c.PC.read = some [Val.num 0, Val.num 0,
    Val.num 0, Val.num 0, Val.num 0, Val.num 0, Val.num 0, Val.num 0]) :
    c.step = Except.ok
      { c with A := ⟨idx (c.ram.mem 0).read 0⟩, PC := ⟨XOR c.PC.read (Val.num 1)⟩ } := by
  have hc : ControlUnit [Val.num 0, Val.num 0]
      = ⟨Val.num 1, Val.num 0, Val.num 0, Val.num 0⟩ := by decide
  have ha : OR (Val.num 0) (AND (Val.num 0) (Val.num 1)) = Val.num 0 := by decide
  simp [CPU.step, h, idx, hc, ha, CPU.execLOAD, CPU.execADD, CPU.execXOR, CPU.execSTORE,
    Val.truthy, RAM4.read, RAM4.sel, CPU.clk, DFlipFlop.clock]

/-- A fetched ADD word: `step()` writes the ALU result for opcode `[1,0]` to
A and toggles the low bit of the PC. -/
lemma CPU.step_of_add (c : CPU) (h : ROM8.read c.PC.read = some [Val.num 1, Val.num 0,
    Val.num 0, Val.num 0, Val.num 0, Val.num 0, Val.num 0, Val.num 0]) :
    c.step = Except.ok
      { c with A := ⟨(ALU1 c.A.read c.B.read (Val.num 0) [Val.num 1, Val.num 0]).result⟩,
               PC := ⟨XOR c.PC.read (Val.num 1)⟩ } := by
  have hc : ControlUnit [Val.num 1, Val.num 0]
      = ⟨Val.num 0, Val.num 0, Val.num 1, Val.num 0⟩ := by decide
  have ha : OR (Val.num 0) (AND (Val.num 0) (Val.num 1)) = Val.num 0 := by decide
  simp [CPU.step, h, idx, hc, ha, CPU.execLOAD, CPU.execADD, CPU.execXOR, CPU.execSTORE,
    Val.truthy, CPU.clk, DFlipFlop.clock]

/-- A fetched XOR word: `step()` writes the ALU result for opcode `[1,1]` to
A and toggles the low bit of the PC. -/
lemma CPU.step_of_xor (c : CPU) (h : ROM8.read c.PC.read = some [Val.num 1, Val.num 1,
    Val.num 0, Val.num 0, Val.num 0, Val.num 0, Val.num 0, Val.num 0]) :
    c.step = Except.ok
      { c with A := ⟨(ALU1 c.A.read c.B.read (Val.num 0) [Val.num 1, Val.num 1]).result⟩,
               PC := ⟨XOR c.PC.read (Val.num 1)⟩ } := by
  have hc : ControlUnit [Val.num 1, Val.num 1]
      = ⟨Val.num 0, Val.num 0, Val.num 0, Val.num 1⟩ := by decide
  have ha : OR (Val.num 0) (AND (Val.num 0) (Val.num 1)) = Val.num 0 := by decide
  simp [CPU.step, h, idx, hc, ha, CPU.execLOAD, CPU.execADD, CPU.execXOR, CPU.execSTORE,
    Val.truthy, CPU.clk, DFlipFlop.clock]

/-- A fetched STORE word: `step()` loads `[A,0,0,0]` into `RAM[1]` and toggles
the low bit of the PC. -/
lemma CPU.step_of_store (c : CPU) (h : ROM8.read c.PC.read = some [Val.num 0, Val.num 1,
    Val.num 0, Val.num 1, Val.num 0, Val.num 0, Val.num 0, Val.num 0]) :
    c.step = Except.ok
      { c with ram := c.ram.setMem 1
                 ((c.ram.mem 1).load [c.A.read, Val.num 0, Val.num 0, Val.num 0] (Val.num 1)),
               PC := ⟨XOR c.PC.read (Val.num 1)⟩ } := by
  have hc : ControlUnit [Val.num 0, Val.num 1]
      = ⟨Val.num 0, Val.num 1, Val.num 0, Val.num 0⟩ := by decide
  have ha : OR (Val.num 1) (AND (Val.num 0) (Val.num 1)) = Val.num 1 := by decide
  simp [CPU.step, h, idx, hc, ha, CPU.execLOAD, CPU.execADD, CPU.execXOR, CPU.execSTORE,
    Val.truthy, RAM4.write, RAM4.sel, CPU.clk, DFlipFlop.clock]

/-- With the PC at 0 the decoded instruction is LOAD. -/
lemma CPU.ctrlOf_pc0 (A B : DFlipFlop) (ram : RAM4) :
    CPU.ctrlOf ⟨A, B, ⟨Val.num 0⟩, ram⟩
      = some ⟨Val.num 1, Val.num 0, Val.num 0, Val.num 0⟩ := by
  have hc : ControlUnit [Val.num 0, Val.num 0]
      = ⟨Val.num 1, Val.num 0, Val.num 0, Val.num 0⟩ := by decide
  simp [CPU.ctrlOf, DFlipFlop.read, ROM8.read_zero, idx, hc]

/-- With the PC at 1 the decoded instruction is ADD. -/
lemma CPU.ctrlOf_pc1 (A B : DFlipFlop) (ram : RAM4) :
    CPU.ctrlOf ⟨A, B, ⟨Val.num 1⟩, ram⟩
      = some ⟨Val.num 0, Val.num 0, Val.num 1, Val.num 0⟩ := by
  have hc : ControlUnit [Val.num 1, Val.num 0]
      = ⟨Val.num 0, Val.num 0, Val.num 1, Val.num 0⟩ := by decide
  simp [CPU.ctrlOf, DFlipFlop.read, ROM8.read_one, idx, hc]

/-- From a state with A = 1, B = 0, PC in {0,1} and bit 0 of `RAM[0]` equal
to 1, `n` steps only toggle the PC. -/
lemma CPU.run_cycle (ram : RAM4) (h : idx (ram.mem 0).read 0 = Val.num 1) :
    ∀ (n k : Nat), k < 2 →
      CPU.run n ⟨⟨Val.num 1⟩, ⟨Val.num 0⟩, ⟨Val.num (k : Int)⟩, ram⟩
        = Except.ok ⟨⟨Val.num 1⟩, ⟨Val.num 0⟩, ⟨Val.num (((k + n) % 2 : Nat) : Int)⟩, ram⟩ := by
  intro n
  induction n with
  | zero =>
    intro k hk
    simp [CPU.run, Nat.mod_eq_of_lt hk]
  | succ n ih =>
    intro k hk
    have halu : (ALU1 (Val.num 1) (Val.num 0) (Val.num 0) [Val.num 1, Val.num 0]).result
        = Val.num 1 := by decide
    interval_cases k
    · have := ih 1 (by decide)
      simp only [Nat.cast_one] at this
      simp only [CPU.run, Nat.cast_zero, CPU.step_pc0, h, this]
      congr 5
      omega
    · have := ih 0 (by decide)
      simp only [Nat.cast_zero] at this
      simp only [CPU.run, Nat.cast_one, CPU.step_pc1, DFlipFlop.read, halu, this]
      congr 5
      omega

/-- Every call of `step()` has one of five shapes: the fetch yields
`undefined` and the call throws before touching any cell, or one of the four
instruction words is executed. -/
lemma CPU.step_shape (c : CPU) :
    (ROM8.read c.PC.read = none ∧ c.step = Except.error ⟨Err.typeError, c⟩) ∨
    c.step = Except.ok
      { c with A := ⟨idx (c.ram.mem 0).read 0⟩, PC := ⟨XOR c.PC.read (Val.num 1)⟩ } ∨
    c.step = Except.ok
      { c with A := ⟨(ALU1 c.A.read c.B.read (Val.num 0) [Val.num 1, Val.num 0]).result⟩,
               PC := ⟨XOR c.PC.read (Val.num 1)⟩ } ∨
    c.step = Except.ok
      { c with ram := c.ram.setMem 1
                 ((c.ram.mem 1).load [c.A.read, Val.num 0, Val.num 0, Val.num 0] (Val.num 1)),
               PC := ⟨XOR c.PC.read (Val.num 1)⟩ } ∨
    c.step = Except.ok
      { c with A := ⟨(ALU1 c.A.read c.B.read (Val.num 0) [Val.num 1, Val.num 1]).result⟩,
               PC := ⟨XOR c.PC.read (Val.num 1)⟩ } := by
  by_cases hr : ∃ n : Int, (0 ≤ n ∧ n < 8) ∧ c.PC.read = Val.num n
  · obtain ⟨n, hn, hpc⟩ := hr
    rcases ROM8.read_cases n hn with ⟨-, h⟩ | ⟨-, h⟩ | ⟨-, h⟩ | ⟨-, h⟩
    · exact Or.inr (Or.inl (CPU.step_of_load c (hpc ▸ h)))
    · exact Or.inr (Or.inr (Or.inl (CPU.step_of_add c (hpc ▸ h))))
    · exact Or.inr (Or.inr (Or.inr (Or.inl (CPU.step_of_store c (hpc ▸ h)))))
    · exact Or.inr (Or.inr (Or.inr (Or.inr (CPU.step_of_xor c (hpc ▸ h)))))
  · have hnone : ROM8.read c.PC.read = none :=
      ROM8.read_none _ (fun n hn he => hr ⟨n, hn, he⟩)
    exact Or.inl ⟨hnone, by simp [CPU.step, hnone]⟩

/-- With the PC in 0..7 the fetch yields a word. -/
lemma ROM8.read_ne_none (n : Int) (h : 0 ≤ n ∧ n < 8) : ROM8.read (Val.num n) ≠ none := by
  rcases ROM8.read_cases n h with ⟨-, h⟩ | ⟨-, h⟩ | ⟨-, h⟩ | ⟨-, h⟩ <;> simp [h]

/-- The constructor yields A = B = PC = 0 with the preloaded RAM. -/
lemma CPU.new_eq : CPU.new = Except.ok (CPU.cell 0 0) := by
  decide

/-- The reachable states: the constructed one and the two of the cycle. -/
lemma CPU.reachable_cases (c : CPU) (h : c.Reachable) :
    c = CPU.cell 0 0 ∨ c = CPU.cell 1 0 ∨ c = CPU.cell 1 1 := by
  obtain ⟨c0, n, h0, hn⟩ := h
  rw [CPU.new_eq] at h0
  injection h0 with h0
  subst h0
  cases n with
  | zero =>
    simp only [CPU.run] at hn
    injection hn with hn
    exact Or.inl hn.symm
  | succ m =>
    have hram : idx ((CPU.cell 0 0).ram.mem 0).read 0 = Val.num 1 := by decide
    have hcyc := CPU.run_cycle (CPU.cell 0 0).ram hram m 1 (by decide)
    simp only [Nat.cast_one] at hcyc
    have hstep : (CPU.cell 0 0).step = Except.ok (CPU.cell 1 1) := by decide
    simp only [CPU.run, hstep] at hn
    have hc1 : CPU.cell 1 1
        = ⟨⟨Val.num 1⟩, ⟨Val.num 0⟩, ⟨Val.num 1⟩, (CPU.cell 0 0).ram⟩ := rfl
    rw [hc1, hcyc] at hn
    injection hn with hn
    subst hn
    rcases Nat.mod_two_eq_zero_or_one (1 + m) with hk | hk
    · rw [hk]
      exact Or.inr (Or.inl rfl)
    · rw [hk]
      exact Or.inr (Or.inr rfl)

/-- ToInt32 does not change the residue modulo `2^32`. -/
lemma Val.wrap32_emod (n : Int) : Val.wrap32 n % 2 ^ 32 = n % 2 ^ 32 := by
  unfold Val.wrap32
  norm_num
  split_ifs <;> omega

/-- Reading back the 32 bits of a number built from 32 bits. -/
lemma Val.bits32_ofBits32 (k : Nat) (hk : k < 2 ^ 32) : (Val.ofBits32 k).bits32 = k := by
  simp only [Val.bits32, Val.ofBits32, Val.toInt32, Val.wrap32_emod, Int.ofNat_eq_coe]
  norm_num at hk ⊢
  omega

/-- The 32 bits of a value are below `2^32`. -/
lemma Val.bits32_lt (v : Val) : v.bits32 < 2 ^ 32 := by
  simp only [Val.bits32]
  norm_num
  omega

/-- For any two values, `(a ^ b) ^ 0` is `a ^ b`. -/
lemma XOR_zero (a b : Val) : XOR (XOR a b) (Val.num 0) = XOR a b := by
  have h0 : (Val.num 0).bits32 = 0 := by decide
  have hlt : Nat.xor a.bits32 b.bits32 < 2 ^ 32 :=
    Nat.xor_lt_two_pow (Val.bits32_lt a) (Val.bits32_lt b)
  have hx : ∀ k : Nat, Nat.xor k 0 = k := fun k => Nat.xor_zero k
  rw [XOR, h0, hx]
  rw [XOR, Val.bits32_ofBits32 _ hlt]

/-- The gate `OR` is commutative on all values. -/
lemma OR_comm (a b : Val) : OR a b = OR b a := by
  have h : ∀ x y : Nat, Nat.lor x y = Nat.lor y x := fun x y => Nat.lor_comm x y
  rw [OR, OR, h]

/-- With carry-in 0 the ALU gives the same result for the opcodes `[1,0]` and
`[1,1]`, whatever the operands. -/
lemma ALU1_add_eq_xor (a b : Val) :
    (ALU1 a b (Val.num 0) [Val.num 1, Val.num 0]).result
      = (ALU1 a b (Val.num 0) [Val.num 1, Val.num 1]).result := by
  have m1 : AND (NOT (Val.num 1)) (NOT (Val.num 0)) = Val.num 0 := by decide
  have m2 : AND (NOT (Val.num 1)) (Val.num 0) = Val.num 0 := by decide
  have m3 : AND (Val.num 1) (NOT (Val.num 0)) = Val.num 1 := by decide
  have m4 : AND (Val.num 1) (Val.num 0) = Val.num 0 := by decide
  have m5 : AND (NOT (Val.num 1)) (NOT (Val.num 1)) = Val.num 0 := by decide
  have m6 : AND (NOT (Val.num 1)) (Val.num 1) = Val.num 0 := by decide
  have m7 : AND (Val.num 1) (NOT (Val.num 1)) = Val.num 0 := by decide
  have m8 : AND (Val.num 1) (Val.num 1) = Val.num 1 := by decide
  simp only [ALU1, FullAdder, idx, List.getD_cons_zero, List.getD_cons_succ, m1, m2, m3,
    m4, m5, m6, m7, m8, XOR_zero]
  rw [OR_comm (AND (XOR a b) (Val.num 1))]

/-! ## Gates, adder, ALU and control unit -/

/-- C10: gate truth tables. On bits, `AND` is conjunction, `OR` disjunction,
`XOR` exclusive or and `NOT(a) = 1 - a`; every gate maps bits to bits. -/
theorem gates_truth_tables :
    (∀ a b : Bool, AND (Val.bit a) (Val.bit b) = Val.bit (a && b)) ∧
    (∀ a b : Bool, OR (Val.bit a) (Val.bit b) = Val.bit (a || b)) ∧
    (∀ a b : Bool, XOR (Val.bit a) (Val.bit b) = Val.bit (xor a b)) ∧
    (∀ x : Int, x = 0 ∨ x = 1 → NOT (Val.num x) = Val.num (1 - x)) ∧
    (∀ a b : Val, a.IsBit → b.IsBit →
      (AND a b).IsBit ∧ (OR a b).IsBit ∧ (XOR a b).IsBit ∧ (NOT a).IsBit) := by
  refine ⟨by decide, by decide, by decide, ?_, ?_⟩
  · rintro x (rfl | rfl) <;> decide
  · rintro a b (rfl | rfl) (rfl | rfl) <;> decide

/-- Instance of `gates_truth_tables` at `a = 1`, `b = 0`. -/
theorem gates_truth_tables_witness :
    NOT (Val.num 1) = Val.num (1 - 1) ∧
    ((AND (Val.num 1) (Val.num 0)).IsBit ∧ (OR (Val.num 1) (Val.num 0)).IsBit ∧
      (XOR (Val.num 1) (Val.num 0)).IsBit ∧ (NOT (Val.num 1)).IsBit) :=
  ⟨gates_truth_tables.2.2.2.1 1 (Or.inr rfl),
   gates_truth_tables.2.2.2.2 (Val.num 1) (Val.num 0) (Or.inr rfl) (Or.inl rfl)⟩

/-- C8: full adder. On bits, `sum = a xor b xor cin` and
`cout = (a and b) or ((a xor b) and cin)`; both are bits and
`sum + 2 * cout = a + b + cin`. -/
theorem fullAdder_correct (a b cin : Bool) :
    (FullAdder (Val.bit a) (Val.bit b) (Val.bit cin)).sum = Val.bit (xor (xor a b) cin) ∧
    (FullAdder (Val.bit a) (Val.bit b) (Val.bit cin)).cout
      = Val.bit ((a && b) || (xor a b && cin)) ∧
    ∃ s c : Int,
      (FullAdder (Val.bit a) (Val.bit b) (Val.bit cin)).sum = Val.num s ∧
      (FullAdder (Val.bit a) (Val.bit b) (Val.bit cin)).cout = Val.num c ∧
      (s = 0 ∨ s = 1) ∧ (c = 0 ∨ c = 1) ∧
      s + 2 * c = (if a then 1 else 0) + (if b then 1 else 0) + (if cin then 1 else 0) := by
  cases a <;> cases b <;> cases cin <;>
    first
      | exact ⟨by decide, by decide, 0, 0, by decide, by decide, by decide, by decide, by decide⟩
      | exact ⟨by decide, by decide, 1, 0, by decide, by decide, by decide, by decide, by decide⟩
      | exact ⟨by decide, by decide, 0, 1, by decide, by decide, by decide, by decide, by decide⟩
      | exact ⟨by decide, by decide, 1, 1, by decide, by decide, by decide, by decide, by decide⟩

/-- C7: ALU truth table. On bits, `result` is `a and b` for opcode `[0,0]`,
`a or b` for `[0,1]`, the full-adder sum `a xor b xor cin` for `[1,0]` and
`a xor b` for `[1,1]`; `cout` is the full adder's carry-out for every
opcode. -/
theorem alu1_truth_table (a b cin : Bool) :
    (ALU1 (Val.bit a) (Val.bit b) (Val.bit cin) [Val.num 0, Val.num 0]).result
      = Val.bit (a && b) ∧
    (ALU1 (Val.bit a) (Val.bit b) (Val.bit cin) [Val.num 0, Val.num 1]).result
      = Val.bit (a || b) ∧
    (ALU1 (Val.bit a) (Val.bit b) (Val.bit cin) [Val.num 1, Val.num 0]).result
      = Val.bit (xor (xor a b) cin) ∧
    (ALU1 (Val.bit a) (Val.bit b) (Val.bit cin) [Val.num 1, Val.num 0]).result
      = (FullAdder (Val.bit a) (Val.bit b) (Val.bit cin)).sum ∧
    (ALU1 (Val.bit a) (Val.bit b) (Val.bit cin) [Val.num 1, Val.num 1]).result
      = Val.bit (xor a b) ∧
    ∀ op0 op1 : Bool,
      (ALU1 (Val.bit a) (Val.bit b) (Val.bit cin) [Val.bit op0, Val.bit op1]).cout
        = (FullAdder (Val.bit a) (Val.bit b) (Val.bit cin)).cout := by
  cases a <;> cases b <;> cases cin <;> decide

/-- C9: control unit. For an opcode of bits, `LOAD = 1` iff the opcode is
`[0,0]`, `STORE = 1` iff `[0,1]`, `ADD = 1` iff `[1,0]`, `XOR = 1` iff
`[1,1]`; every signal is a bit and exactly one of the four is 1. -/
theorem controlUnit_one_hot (op0 op1 : Bool) :
    ((ControlUnit [Val.bit op0, Val.bit op1]).LOAD = Val.num 1
      ↔ op0 = false ∧ op1 = false) ∧
    ((ControlUnit [Val.bit op0, Val.bit op1]).STORE = Val.num 1
      ↔ op0 = false ∧ op1 = true) ∧
    ((ControlUnit [Val.bit op0, Val.bit op1]).ADD = Val.num 1
      ↔ op0 = true ∧ op1 = false) ∧
    ((ControlUnit [Val.bit op0, Val.bit op1]).XOR = Val.num 1
      ↔ op0 = true ∧ op1 = true) ∧
    (ControlUnit [Val.bit op0, Val.bit op1]).LOAD.IsBit ∧
    (ControlUnit [Val.bit op0, Val.bit op1]).STORE.IsBit ∧
    (ControlUnit [Val.bit op0, Val.bit op1]).ADD.IsBit ∧
    (ControlUnit [Val.bit op0, Val.bit op1]).XOR.IsBit ∧
    List.count (Val.num 1)
      [(ControlUnit [Val.bit op0, Val.bit op1]).LOAD,
       (ControlUnit [Val.bit op0, Val.bit op1]).STORE,
       (ControlUnit [Val.bit op0, Val.bit op1]).ADD,
       (ControlUnit [Val.bit op0, Val.bit op1]).XOR] = 1 := by
  cases op0 <;> cases op1 <;> decide

/-! ## Storage elements -/

/-- C4: D flip-flop. A fresh flip-flop reads 0; `clock(d, 1)` makes `read()`
return `d`; `clock(d, clk)` with `clk` other than 1 leaves `read()`
unchanged. -/
theorem dFlipFlop_clock_read :
    DFlipFlop.new.read = Val.num 0 ∧
    (∀ (f : DFlipFlop) (d : Val), (f.clock d (Val.num 1)).read = d) ∧
    (∀ (f : DFlipFlop) (d clk : Val), clk ≠ Val.num 1 → (f.clock d clk).read = f.read) := by
  refine ⟨rfl, ?_, ?_⟩
  · intro f d
    simp [DFlipFlop.clock, DFlipFlop.read]
  · intro f d clk h
    simp [DFlipFlop.clock, h]

/-- Instance of `dFlipFlop_clock_read`: clocking 0 at level 0 into a
flip-flop holding 1 leaves it at 1. -/
theorem dFlipFlop_clock_read_witness :
    Val.num 0 ≠ Val.num 1 ∧
    ((DFlipFlop.mk (Val.num 1)).clock (Val.num 0) (Val.num 0)).read
      = (DFlipFlop.mk (Val.num 1)).read :=
  ⟨by decide,
   dFlipFlop_clock_read.2.2 (DFlipFlop.mk (Val.num 1)) (Val.num 0) (Val.num 0) (by decide)⟩

/-- C5: register round trip. For a sequence of exactly four values,
`load(bits, 1)` then `read()` returns `bits`, and `load(bits, 0)` then
`read()` returns what `read()` returned before. -/
theorem register4_round_trip (r : Register4) (bits : List Val) (h : bits.length = 4) :
    (r.load bits (Val.num 1)).read = bits ∧
    (r.load bits (Val.num 0)).read = r.read := by
  constructor
  · rw [Register4.read_load_one, idx_four bits h]
  · rw [Register4.load_zero]

/-- Instance of `register4_round_trip` at the word `[1,0,1,1]` on a fresh
register. -/
theorem register4_round_trip_witness :
    (Register4.new.load [Val.num 1, Val.num 0, Val.num 1, Val.num 1] (Val.num 1)).read
      = [Val.num 1, Val.num 0, Val.num 1, Val.num 1] ∧
    (Register4.new.load [Val.num 1, Val.num 0, Val.num 1, Val.num 1] (Val.num 0)).read
      = Register4.new.read :=
  register4_round_trip Register4.new [Val.num 1, Val.num 0, Val.num 1, Val.num 1] rfl

/-- C6: RAM write/read and frame. For `addr` in 0..3 and a four-value word,
after `write(addr, data, 1)` `read(addr)` returns `data` and every other
address in 0..3 reads as before; after `write(addr, data, 0)` every address
reads as before. -/
theorem ram4_write_read_frame (m : RAM4) (n : Int) (hn : 0 ≤ n ∧ n < 4)
    (data : List Val) (hd : data.length = 4) :
    (∃ m1, m.write (Val.num n) data (Val.num 1) = Except.ok m1 ∧
      m1.read (Val.num n) = Except.ok data ∧
      ∀ j : Int, 0 ≤ j ∧ j < 4 → j ≠ n → m1.read (Val.num j) = m.read (Val.num j)) ∧
    (∃ m0, m.write (Val.num n) data (Val.num 0) = Except.ok m0 ∧
      ∀ j : Val, m0.read j = m.read j) := by
  constructor
  · refine ⟨_, by rw [RAM4.write, RAM4.sel_num n hn], ?_, ?_⟩
    · rw [RAM4.read, RAM4.sel_num n hn]
      simp only [RAM4.mem_setMem_same, Register4.read_load_one, idx_four data hd]
    · intro j hj hne
      rw [RAM4.read, RAM4.read, RAM4.sel_num j hj]
      simp only
      rw [RAM4.mem_setMem_other]
      intro h
      apply hne
      have := congrArg Fin.val h
      simp only at this
      omega
  · refine ⟨_, by rw [RAM4.write, RAM4.sel_num n hn], ?_⟩
    intro j
    rw [Register4.load_zero, RAM4.setMem_mem]

/-- Instance of `ram4_write_read_frame`: `write(2, [1,1,0,0], clk)` on a
fresh RAM. -/
theorem ram4_write_read_frame_witness :
    (∃ m1, RAM4.new.write (Val.num 2) [Val.num 1, Val.num 1, Val.num 0, Val.num 0] (Val.num 1)
        = Except.ok m1 ∧
      m1.read (Val.num 2) = Except.ok [Val.num 1, Val.num 1, Val.num 0, Val.num 0] ∧
      ∀ j : Int, 0 ≤ j ∧ j < 4 → j ≠ 2 → m1.read (Val.num j) = RAM4.new.read (Val.num j)) ∧
    (∃ m0, RAM4.new.write (Val.num 2) [Val.num 1, Val.num 1, Val.num 0, Val.num 0] (Val.num 0)
        = Except.ok m0 ∧
      ∀ j : Val, m0.read j = RAM4.new.read j) :=
  ram4_write_read_frame RAM4.new 2 (by decide) [Val.num 1, Val.num 1, Val.num 0, Val.num 0] rfl

/-! ## CPU -/

/-- C1: end-to-end trace. The fresh CPU is observed as `(0,0,0,1,0)` and the
states after 1, 2, 3 and 4 steps are `(1,0,1,1,0)`, `(1,0,0,1,0)`,
`(1,0,1,1,0)`, `(1,0,0,1,0)`. -/
theorem cpu_trace_four_steps :
    CPU.trace 0 = Except.ok ⟨Val.num 0, Val.num 0, Val.num 0, Val.num 1, Val.num 0⟩ ∧
    CPU.trace 1 = Except.ok ⟨Val.num 1, Val.num 0, Val.num 1, Val.num 1, Val.num 0⟩ ∧
    CPU.trace 2 = Except.ok ⟨Val.num 1, Val.num 0, Val.num 0, Val.num 1, Val.num 0⟩ ∧
    CPU.trace 3 = Except.ok ⟨Val.num 1, Val.num 0, Val.num 1, Val.num 1, Val.num 0⟩ ∧
    CPU.trace 4 = Except.ok ⟨Val.num 1, Val.num 0, Val.num 0, Val.num 1, Val.num 0⟩ := by
  decide

/-- C2: reachability limit. The state before the `n`-th call of `step()`
(counting from 0) exists, has PC `n mod 2`, fetches the ROM word at address
`n mod 2` and decodes it with `STORE = 0` and `XOR = 0`; for `n ≥ 1` the
observed state after `n` steps is `(1, 0, n mod 2, 1, 0)`. -/
theorem cpu_reachability_limit (n : Nat) :
    ∃ c0 c instr ctrl,
      CPU.new = Except.ok c0 ∧ CPU.run n c0 = Except.ok c ∧
      c.PC.read = Val.num ((n % 2 : Nat) : Int) ∧
      ROM8.read c.PC.read = some instr ∧ ROM8.rom[n % 2]? = some instr ∧
      c.ctrlOf = some ctrl ∧ ctrl.STORE = Val.num 0 ∧ ctrl.XOR = Val.num 0 ∧
      (1 ≤ n → CPU.trace n = Except.ok
        ⟨Val.num 1, Val.num 0, Val.num ((n % 2 : Nat) : Int), Val.num 1, Val.num 0⟩) := by
  obtain ⟨ram, hnew⟩ : ∃ ram, CPU.new
      = Except.ok ⟨⟨Val.num 0⟩, ⟨Val.num 0⟩, ⟨Val.num 0⟩, ram⟩ := ⟨_, rfl⟩
  have hram : idx (ram.mem 0).read 0 = Val.num 1 := by
    injection hnew with hnew
    injection hnew with _ _ _ hr
    subst hr
    decide
  have hdbg : ∀ k : Nat, k < 2 →
      CPU.debug ⟨⟨Val.num 1⟩, ⟨Val.num 0⟩, ⟨Val.num (k : Int)⟩, ram⟩
        = Except.ok ⟨Val.num 1, Val.num 0, Val.num (k : Int), Val.num 1, Val.num 0⟩ := by
    injection hnew with hnew
    injection hnew with _ _ _ hr
    subst hr
    intro k hk
    interval_cases k <;> decide
  cases n with
  | zero =>
    exact ⟨_, _, _, _, hnew, rfl, rfl, ROM8.read_zero, by decide, CPU.ctrlOf_pc0 _ _ _, rfl,
      rfl, by intro h; omega⟩
  | succ m =>
    have hrun : CPU.run (m + 1) ⟨⟨Val.num 0⟩, ⟨Val.num 0⟩, ⟨Val.num 0⟩, ram⟩
        = Except.ok ⟨⟨Val.num 1⟩, ⟨Val.num 0⟩, ⟨Val.num (((m + 1) % 2 : Nat) : Int)⟩, ram⟩ := by
      have := CPU.run_cycle ram hram m 1 (by decide)
      simp only [Nat.cast_one] at this
      simp only [CPU.run, CPU.step_pc0, hram, this]
      congr 5
      omega
    have htr : CPU.trace (m + 1) = Except.ok ⟨Val.num 1, Val.num 0,
        Val.num (((m + 1) % 2 : Nat) : Int), Val.num 1, Val.num 0⟩ := by
      simp only [CPU.trace, hnew, hrun]
      exact hdbg _ (Nat.mod_lt _ (by decide))
    rcases Nat.mod_two_eq_zero_or_one (m + 1) with hk | hk
    · rw [hk] at hrun htr
      rw [hk]
      exact ⟨_, _, _, _, hnew, hrun, rfl, ROM8.read_zero, by decide, CPU.ctrlOf_pc0 _ _ _,
        rfl, rfl, fun _ => htr⟩
    · rw [hk] at hrun htr
      rw [hk]
      exact ⟨_, _, _, _, hnew, hrun, rfl, ROM8.read_one, by decide, CPU.ctrlOf_pc1 _ _ _,
        rfl, rfl, fun _ => htr⟩

/-- Instance of `cpu_reachability_limit` at `n = 3`: after three steps the
observed state is `(1,0,1,1,0)`. -/
theorem cpu_reachability_limit_witness :
    1 ≤ 3 ∧ CPU.trace 3 = Except.ok
      ⟨Val.num 1, Val.num 0, Val.num ((3 % 2 : Nat) : Int), Val.num 1, Val.num 0⟩ := by
  obtain ⟨_, _, _, _, _, _, _, _, _, _, _, _, h⟩ := cpu_reachability_limit 3
  exact ⟨by decide, h (by decide)⟩

/-- C3: semantics of the reachable instructions. In a state whose A, B and
RAM bits are bits: with PC = 0, `step()` decodes LOAD and sets A to bit 0 of
`RAM[0]`; with PC = 1, it decodes ADD and sets A to the full-adder sum of A
and B with carry-in 0, which is `A xor B`; in both cases B and the RAM are
unchanged and the PC becomes `PC xor 1`. -/
theorem cpu_step_load_add (c : CPU) (hb : c.BitState) :
    (c.PC.read = Val.num 0 →
      c.ctrlOf = some ⟨Val.num 1, Val.num 0, Val.num 0, Val.num 0⟩ ∧
      XOR c.PC.read (Val.num 1) = Val.num 1 ∧
      ∃ w, c.ram.read (Val.num 0) = Except.ok w ∧
        c.step = Except.ok
          { c with A := ⟨idx w 0⟩, PC := ⟨XOR c.PC.read (Val.num 1)⟩ }) ∧
    (c.PC.read = Val.num 1 →
      c.ctrlOf = some ⟨Val.num 0, Val.num 0, Val.num 1, Val.num 0⟩ ∧
      XOR c.PC.read (Val.num 1) = Val.num 0 ∧
      (FullAdder c.A.read c.B.read (Val.num 0)).sum = XOR c.A.read c.B.read ∧
      c.step = Except.ok
        { c with A := ⟨(FullAdder c.A.read c.B.read (Val.num 0)).sum⟩,
                 PC := ⟨XOR c.PC.read (Val.num 1)⟩ }) := by
  obtain ⟨⟨a⟩, ⟨b⟩, ⟨pc⟩, ram⟩ := c
  obtain ⟨ha, hb, -⟩ := hb
  constructor
  · intro h
    simp only [DFlipFlop.read] at h
    subst h
    have hx : XOR (Val.num 0) (Val.num 1) = Val.num 1 := by decide
    refine ⟨CPU.ctrlOf_pc0 _ _ _, hx, (ram.mem 0).read, ?_, ?_⟩
    · simp [RAM4.read, RAM4.sel]
    · rw [CPU.step_pc0]
      simp only [DFlipFlop.read, hx]
  · intro h
    simp only [DFlipFlop.read] at h
    subst h
    have hx : XOR (Val.num 1) (Val.num 1) = Val.num 0 := by decide
    have halu : (ALU1 a b (Val.num 0) [Val.num 1, Val.num 0]).result
        = (FullAdder a b (Val.num 0)).sum := by
      rcases ha with rfl | rfl <;> rcases hb with rfl | rfl <;> decide
    refine ⟨CPU.ctrlOf_pc1 _ _ _, hx, ?_, ?_⟩
    · simp only [DFlipFlop.read]
      rcases ha with rfl | rfl <;> rcases hb with rfl | rfl <;> decide
    · rw [CPU.step_pc1]
      simp only [DFlipFlop.read, halu, hx]

/-- Instance of `cpu_step_load_add` at the state A = 1, B = 1, PC = 1 with a
fresh RAM: ADD writes 0 to A and the PC returns to 0. -/
theorem cpu_step_load_add_witness :
    (CPU.mk ⟨Val.num 1⟩ ⟨Val.num 1⟩ ⟨Val.num 1⟩ RAM4.new).BitState ∧
    (CPU.mk ⟨Val.num 1⟩ ⟨Val.num 1⟩ ⟨Val.num 1⟩ RAM4.new).step
      = Except.ok (CPU.mk ⟨Val.num 0⟩ ⟨Val.num 1⟩ ⟨Val.num 0⟩ RAM4.new) :=
  ⟨by decide,
   ((cpu_step_load_add (CPU.mk ⟨Val.num 1⟩ ⟨Val.num 1⟩ ⟨Val.num 1⟩ RAM4.new)
      (by decide)).2 rfl).2.2.2⟩

/-! ## Reachable states -/

/-- C11: word-shape invariant. In every reachable state A, B, the PC and all
sixteen RAM bits are bits, and bits 1, 2 and 3 of each RAM word are 0. -/
theorem cpu_word_shape (c : CPU) (h : c.Reachable) :
    c.BitState ∧ c.PC.q.IsBit ∧
    ∀ i : Fin 4, idx (c.ram.mem i).read 1 = Val.num 0 ∧
      idx (c.ram.mem i).read 2 = Val.num 0 ∧ idx (c.ram.mem i).read 3 = Val.num 0 := by
  rcases CPU.reachable_cases c h with rfl | rfl | rfl <;> decide

/-- Instance of `cpu_word_shape` at the state after one step. -/
theorem cpu_word_shape_witness :
    (CPU.cell 1 1).Reachable ∧
    ((CPU.cell 1 1).BitState ∧ (CPU.cell 1 1).PC.q.IsBit ∧
      ∀ i : Fin 4, idx ((CPU.cell 1 1).ram.mem i).read 1 = Val.num 0 ∧
        idx ((CPU.cell 1 1).ram.mem i).read 2 = Val.num 0 ∧
        idx ((CPU.cell 1 1).ram.mem i).read 3 = Val.num 0) :=
  ⟨⟨CPU.cell 0 0, 1, CPU.new_eq, by decide⟩,
   cpu_word_shape (CPU.cell 1 1) ⟨CPU.cell 0 0, 1, CPU.new_eq, by decide⟩⟩

/-- C12: `step()` never fails in a reachable state. There the PC is within
0..7, the fetched word has at least the four bits that are read, the derived
RAM address designates a register, and `step()` returns a state. In any state
at all, a call that throws does so before any cell is updated. -/
theorem cpu_step_never_fails (c : CPU) (h : c.Reachable) :
    (∃ (n : Int) (instr : List Val), c.PC.read = Val.num n ∧ 0 ≤ n ∧ n < 8 ∧
      ROM8.read c.PC.read = some instr ∧ 4 ≤ instr.length ∧
      (RAM4.sel (OR (idx instr 3) (AND (idx instr 2) (Val.num 1)))).isSome = true) ∧
    (∃ c1, c.step = Except.ok c1) ∧
    (∀ f, c.step ≠ Except.error f) ∧
    (∀ (s : CPU) (f : Fault), s.step = Except.error f → f.state = s) := by
  refine ⟨?_, ?_, ?_, ?_⟩
  · rcases CPU.reachable_cases c h with rfl | rfl | rfl
    · exact ⟨0, _, rfl, by decide, by decide, ROM8.read_zero, by decide, by decide⟩
    · exact ⟨0, _, rfl, by decide, by decide, ROM8.read_zero, by decide, by decide⟩
    · exact ⟨1, _, rfl, by decide, by decide, ROM8.read_one, by decide, by decide⟩
  · rcases CPU.reachable_cases c h with rfl | rfl | rfl
    · exact ⟨CPU.cell 1 1, by decide⟩
    · exact ⟨CPU.cell 1 1, by decide⟩
    · exact ⟨CPU.cell 1 0, by decide⟩
  · intro f hf
    have h1 : (CPU.cell 0 0).step = Except.ok (CPU.cell 1 1) := by decide
    have h2 : (CPU.cell 1 0).step = Except.ok (CPU.cell 1 1) := by decide
    have h3 : (CPU.cell 1 1).step = Except.ok (CPU.cell 1 0) := by decide
    rcases CPU.reachable_cases c h with rfl | rfl | rfl
    · rw [h1] at hf
      exact absurd hf (by simp)
    · rw [h2] at hf
      exact absurd hf (by simp)
    · rw [h3] at hf
      exact absurd hf (by simp)
  · intro s f hs
    rcases CPU.step_shape s with ⟨-, h1⟩ | h1 | h1 | h1 | h1 <;> rw [h1] at hs
    · injection hs with hs
      rw [← hs]
    all_goals exact absurd hs (by simp)

/-- Instance of `cpu_step_never_fails` at the constructed state. -/
theorem cpu_step_never_fails_witness :
    (CPU.cell 0 0).Reachable ∧ ∃ c1, (CPU.cell 0 0).step = Except.ok c1 :=
  ⟨⟨CPU.cell 0 0, 0, CPU.new_eq, rfl⟩,
   (cpu_step_never_fails (CPU.cell 0 0) ⟨CPU.cell 0 0, 0, CPU.new_eq, rfl⟩).2.1⟩

/-! ## Behaviour outside the preconditions -/

/-- C13 (as stated, refuted): loading the two-element sequence `[1,0]` at
clock level 1 into a fresh register completes and changes its contents to
`[1, 0, undefined, undefined]`. -/
theorem register4_load_short_changes :
    (Register4.new.load [Val.num 1, Val.num 0] (Val.num 1)).read
      = [Val.num 1, Val.num 0, Val.undef, Val.undef] ∧
    (Register4.new.load [Val.num 1, Val.num 0] (Val.num 1)).read ≠ Register4.new.read := by
  decide

/-- C13 (amended): for a sequence whose length is not 4, `load(bits, clk)`
completes (it is a total function of the register state): at clock level 1
the register then reads `[bits[0], bits[1], bits[2], bits[3]]`, where a
position past the end of `bits` is `undefined` and elements past index 3 are
ignored; at any other clock level the register is unchanged. -/
theorem register4_load_any_length (r : Register4) (bits : List Val) (clk : Val)
    (_hlen : bits.length ≠ 4) :
    (clk = Val.num 1 →
      (r.load bits clk).read = [idx bits 0, idx bits 1, idx bits 2, idx bits 3]) ∧
    (∀ i : Nat, bits.length ≤ i → idx bits i = Val.undef) ∧
    r.load bits clk = r.load (bits.take 4) clk ∧
    (clk ≠ Val.num 1 → r.load bits clk = r) := by
  refine ⟨?_, ?_, ?_, ?_⟩
  · intro hc
    rw [hc, Register4.read_load_one]
  · intro i hi
    simp [idx, List.getD, List.getElem?_eq_none hi]
  · have hi : ∀ i : Fin 4, idx (bits.take 4) i.val = idx bits i.val := by
      intro i
      simp [idx, List.getD, List.getElem?_take, i.isLt]
    simp only [Register4.load, List.foldl, hi]
  · intro hc
    exact Register4.load_of_ne_one r bits clk hc

/-- Instance of `register4_load_any_length` at the five-element sequence
`[1,1,1,1,1]` on a fresh register: the fifth element is ignored. -/
theorem register4_load_any_length_witness :
    [Val.num 1, Val.num 1, Val.num 1, Val.num 1, Val.num 1].length ≠ 4 ∧
    (Register4.new.load [Val.num 1, Val.num 1, Val.num 1, Val.num 1, Val.num 1]
      (Val.num 1)).read = [Val.num 1, Val.num 1, Val.num 1, Val.num 1] :=
  ⟨by decide,
   (register4_load_any_length Register4.new
     [Val.num 1, Val.num 1, Val.num 1, Val.num 1, Val.num 1] (Val.num 1) (by decide)).1 rfl⟩

/-- C14: RAM address range. For an address that is not one of the numbers
0, 1, 2, 3, `read(addr)` throws and `write(addr, data, clk)` throws for every
`data` and `clk`; the RAM cells after the failed write are those before it
(a read never assigns a cell). -/
theorem ram4_address_out_of_range (m : RAM4) (addr : Val)
    (h : ∀ n : Int, 0 ≤ n ∧ n < 4 → addr ≠ Val.num n) :
    m.read addr = Except.error Err.typeError ∧
    ∀ (data : List Val) (clk : Val),
      m.write addr data clk = Except.error Err.typeError ∧
      m.afterWrite addr data clk = m := by
  have hs := RAM4.sel_none addr h
  refine ⟨by simp [RAM4.read, hs], ?_⟩
  intro data clk
  have hw : m.write addr data clk = Except.error Err.typeError := by
    simp [RAM4.write, hs]
  exact ⟨hw, by simp [RAM4.afterWrite, hw]⟩

/-- Instance of `ram4_address_out_of_range` at address 4 on a fresh RAM. -/
theorem ram4_address_out_of_range_witness :
    RAM4.new.read (Val.num 4) = Except.error Err.typeError ∧
    ∀ (data : List Val) (clk : Val),
      RAM4.new.write (Val.num 4) data clk = Except.error Err.typeError ∧
      RAM4.new.afterWrite (Val.num 4) data clk = RAM4.new :=
  ram4_address_out_of_range RAM4.new (Val.num 4) (by
    intro n hn he
    injection he with he
    omega)

/-- C15 (as stated, refuted): at the addresses 8 and -1, outside 0..7,
`read(addr)` returns `undefined` instead of failing; the failure surfaces
later, inside `step()`, when a bit of the fetched word is read. -/
theorem rom8_read_out_of_range_returns :
    ROM8.read (Val.num 8) = none ∧ ROM8.read (Val.num (-1)) = none ∧
    CPU.step ⟨⟨Val.num 0⟩, ⟨Val.num 0⟩, ⟨Val.num 8⟩, RAM4.new⟩
      = Except.error
          ⟨Err.typeError, ⟨⟨Val.num 0⟩, ⟨Val.num 0⟩, ⟨Val.num 8⟩, RAM4.new⟩⟩ := by
  decide

/-- C15 (amended): for every address in 0..7 `read(addr)` returns the word
of the program table (0: 00000000, 1: 10000000, 2: 01010000, 3: 11000000,
4..7: 00000000, first bit first); for every address outside 0..7 it returns
`undefined`, without failing. -/
theorem rom8_read_table :
    ROM8.read (Val.num 0) = some ([0, 0, 0, 0, 0, 0, 0, 0].map Val.num) ∧
    ROM8.read (Val.num 1) = some ([1, 0, 0, 0, 0, 0, 0, 0].map Val.num) ∧
    ROM8.read (Val.num 2) = some ([0, 1, 0, 1, 0, 0, 0, 0].map Val.num) ∧
    ROM8.read (Val.num 3) = some ([1, 1, 0, 0, 0, 0, 0, 0].map Val.num) ∧
    ROM8.read (Val.num 4) = some ([0, 0, 0, 0, 0, 0, 0, 0].map Val.num) ∧
    ROM8.read (Val.num 5) = some ([0, 0, 0, 0, 0, 0, 0, 0].map Val.num) ∧
    ROM8.read (Val.num 6) = some ([0, 0, 0, 0, 0, 0, 0, 0].map Val.num) ∧
    ROM8.read (Val.num 7) = some ([0, 0, 0, 0, 0, 0, 0, 0].map Val.num) ∧
    (∀ n : Int, 0 ≤ n ∧ n < 8 → ROM8.read (Val.num n) = ROM8.rom[n.toNat]?) ∧
    (∀ addr : Val, (∀ n : Int, 0 ≤ n ∧ n < 8 → addr ≠ Val.num n) →
      ROM8.read addr = none) := by
  refine ⟨by decide, by decide, by decide, by decide, by decide, by decide, by decide,
    by decide, ?_, ROM8.read_none⟩
  intro n hn
  simp [ROM8.read, hn.1]

/-- Instance of `rom8_read_table` at address 8. -/
theorem rom8_read_table_witness : ROM8.read (Val.num 8) = none :=
  rom8_read_table.2.2.2.2.2.2.2.2.2 (Val.num 8) (by
    intro n hn he
    injection he with he
    omega)

/-! ## Program counter and unreachable instructions -/

/-- C16 (the code at the failing input): the state after one step is
reachable and has PC = 1; the next `step()` sets the PC to `XOR(1, 1) = 0`,
not to 2, so the PC is not incremented and address 2 is not fetched. -/
theorem cpu_pc_toggles_at_one :
    (CPU.cell 1 1).Reachable ∧ (CPU.cell 1 1).PC.read = Val.num 1 ∧
    (CPU.cell 1 1).step = Except.ok (CPU.cell 1 0) ∧
    (CPU.cell 1 0).PC.read = Val.num 0 ∧ (CPU.cell 1 0).PC.read ≠ Val.num (1 + 1) :=
  ⟨⟨CPU.cell 0 0, 1, CPU.new_eq, by decide⟩, rfl, by decide, rfl, by decide⟩

/-- C18: STORE and XOR. In a state whose A, B and RAM bits are bits: with
PC = 2, `step()` decodes STORE and sets `RAM[1]` to `[A,0,0,0]`, leaving A,
B, `RAM[0]`, `RAM[2]` and `RAM[3]`; with PC = 3, it decodes XOR and sets A to
`A xor B`, leaving B and the RAM. -/
theorem cpu_step_store_xor (c : CPU) (hb : c.BitState) :
    (c.PC.read = Val.num 2 →
      c.ctrlOf = some ⟨Val.num 0, Val.num 1, Val.num 0, Val.num 0⟩ ∧
      ∃ c1, c.step = Except.ok c1 ∧
        c1.ram.read (Val.num 1) = Except.ok [c.A.read, Val.num 0, Val.num 0, Val.num 0] ∧
        c1.A = c.A ∧ c1.B = c.B ∧ c1.ram.mem 0 = c.ram.mem 0 ∧
        c1.ram.mem 2 = c.ram.mem 2 ∧ c1.ram.mem 3 = c.ram.mem 3) ∧
    (c.PC.read = Val.num 3 →
      c.ctrlOf = some ⟨Val.num 0, Val.num 0, Val.num 0, Val.num 1⟩ ∧
      ∃ c1, c.step = Except.ok c1 ∧ c1.A.read = XOR c.A.read c.B.read ∧
        c1.B = c.B ∧ c1.ram = c.ram) := by
  obtain ⟨ha, hb, -⟩ := hb
  constructor
  · intro h
    have hr : ROM8.read c.PC.read = some [Val.num 0, Val.num 1, Val.num 0, Val.num 1,
        Val.num 0, Val.num 0, Val.num 0, Val.num 0] := by rw [h]; decide
    have hc : ControlUnit [Val.num 0, Val.num 1]
        = ⟨Val.num 0, Val.num 1, Val.num 0, Val.num 0⟩ := by decide
    refine ⟨by simp [CPU.ctrlOf, hr, idx, hc], _, CPU.step_of_store c hr, ?_, rfl, rfl,
      ?_, ?_, ?_⟩
    · simp only [RAM4.read, RAM4.sel_num 1 (by decide)]
      have h1 : (⟨(1 : Int).toNat, by decide⟩ : Fin 4) = 1 := rfl
      rw [h1, RAM4.mem_setMem_same, Register4.read_load_one]
      rfl
    · exact RAM4.mem_setMem_other _ 1 0 _ (by decide)
    · exact RAM4.mem_setMem_other _ 1 2 _ (by decide)
    · exact RAM4.mem_setMem_other _ 1 3 _ (by decide)
  · intro h
    have hr : ROM8.read c.PC.read = some [Val.num 1, Val.num 1, Val.num 0, Val.num 0,
        Val.num 0, Val.num 0, Val.num 0, Val.num 0] := by rw [h]; decide
    have hc : ControlUnit [Val.num 1, Val.num 1]
        = ⟨Val.num 0, Val.num 0, Val.num 0, Val.num 1⟩ := by decide
    refine ⟨by simp [CPU.ctrlOf, hr, idx, hc], _, CPU.step_of_xor c hr, ?_, rfl, rfl⟩
    simp only [DFlipFlop.read]
    rcases ha with ha | ha <;> rcases hb with hb | hb <;> rw [ha, hb] <;> decide

/-- Instance of `cpu_step_store_xor` at A = 1, B = 0, PC = 2 on a fresh RAM:
STORE puts `[1,0,0,0]` into `RAM[1]`. -/
theorem cpu_step_store_xor_witness :
    (CPU.mk ⟨Val.num 1⟩ ⟨Val.num 0⟩ ⟨Val.num 2⟩ RAM4.new).BitState ∧
    ∃ c1, (CPU.mk ⟨Val.num 1⟩ ⟨Val.num 0⟩ ⟨Val.num 2⟩ RAM4.new).step = Except.ok c1 ∧
      c1.ram.read (Val.num 1) = Except.ok [Val.num 1, Val.num 0, Val.num 0, Val.num 0] := by
  obtain ⟨-, c1, h1, h2, -⟩ :=
    (cpu_step_store_xor (CPU.mk ⟨Val.num 1⟩ ⟨Val.num 0⟩ ⟨Val.num 2⟩ RAM4.new)
      (by decide)).1 rfl
  exact ⟨by decide, c1, h1, h2⟩

/-- C19: ADD and XOR coincide. On bits both ALU results with carry-in 0 are
`a xor b`; for all operands the two results are equal, so the ADD branch and
the XOR branch of `step()` write the same value to A, and so do the ADD
instruction (PC = 1) and the XOR instruction (PC = 3) from any A, B and
RAM. -/
theorem alu_add_xor_coincide :
    (∀ a b : Bool,
      (ALU1 (Val.bit a) (Val.bit b) (Val.num 0) [Val.num 1, Val.num 0]).result
        = Val.bit (xor a b) ∧
      (ALU1 (Val.bit a) (Val.bit b) (Val.num 0) [Val.num 1, Val.num 1]).result
        = Val.bit (xor a b)) ∧
    (∀ a b : Val,
      (ALU1 a b (Val.num 0) [Val.num 1, Val.num 0]).result
        = (ALU1 a b (Val.num 0) [Val.num 1, Val.num 1]).result) ∧
    (∀ c : CPU,
      (c.execADD ⟨Val.num 0, Val.num 0, Val.num 1, Val.num 0⟩).A
        = (c.execXOR ⟨Val.num 0, Val.num 0, Val.num 0, Val.num 1⟩).A) ∧
    (∀ (A B : DFlipFlop) (ram : RAM4), ∃ c1 c3,
      CPU.step ⟨A, B, ⟨Val.num 1⟩, ram⟩ = Except.ok c1 ∧
      CPU.step ⟨A, B, ⟨Val.num 3⟩, ram⟩ = Except.ok c3 ∧ c1.A = c3.A) := by
  refine ⟨by decide, ALU1_add_eq_xor, ?_, ?_⟩
  · intro c
    simp [CPU.execADD, CPU.execXOR, Val.truthy, ALU1_add_eq_xor]
  · intro A B ram
    have h1 : ROM8.read (CPU.mk A B ⟨Val.num 1⟩ ram).PC.read = some [Val.num 1, Val.num 0,
        Val.num 0, Val.num 0, Val.num 0, Val.num 0, Val.num 0, Val.num 0] :=
      ROM8.read_one
    have h3 : ROM8.read (CPU.mk A B ⟨Val.num 3⟩ ram).PC.read = some [Val.num 1, Val.num 1,
        Val.num 0, Val.num 0, Val.num 0, Val.num 0, Val.num 0, Val.num 0] := by
      show ROM8.read (Val.num 3) = _
      decide
    refine ⟨_, _, CPU.step_of_add _ h1, CPU.step_of_xor _ h3, ?_⟩
    simp only [ALU1_add_eq_xor]

/-- C20: B is never written. With the PC in 0..7 `step()` returns a state
with the same B; whenever `step()` returns, B is the same, and when it throws
B is the same; so B is 0 in every reachable state. (`debug()` returns only
the observed tuple.) -/
theorem cpu_B_never_written :
    (∀ (c : CPU) (n : Int), c.PC.read = Val.num n → 0 ≤ n ∧ n < 8 →
      ∃ c1, c.step = Except.ok c1 ∧ c1.B = c.B) ∧
    (∀ c c1 : CPU, c.step = Except.ok c1 → c1.B = c.B) ∧
    (∀ (c : CPU) (f : Fault), c.step = Except.error f → f.state.B = c.B) ∧
    (∀ c : CPU, c.Reachable → c.B.read = Val.num 0) := by
  refine ⟨?_, ?_, ?_, ?_⟩
  · intro c n hpc hn
    rcases CPU.step_shape c with ⟨h0, -⟩ | h1 | h1 | h1 | h1
    · rw [hpc] at h0
      exact absurd h0 (ROM8.read_ne_none n hn)
    all_goals exact ⟨_, h1, rfl⟩
  · intro c c1 hs
    rcases CPU.step_shape c with ⟨-, h1⟩ | h1 | h1 | h1 | h1 <;> rw [h1] at hs
    · exact absurd hs (by simp)
    all_goals
      injection hs with hs
      rw [← hs]
  · intro c f hs
    rcases CPU.step_shape c with ⟨-, h1⟩ | h1 | h1 | h1 | h1 <;> rw [h1] at hs
    · injection hs with hs
      rw [← hs]
    all_goals exact absurd hs (by simp)
  · intro c h
    rcases CPU.reachable_cases c h with rfl | rfl | rfl <;> rfl

/-- Instance of `cpu_B_never_written` at A = 1, B = 1, PC = 2 on a fresh RAM
(the STORE instruction). -/
theorem cpu_B_never_written_witness :
    ∃ c1, (CPU.mk ⟨Val.num 1⟩ ⟨Val.num 1⟩ ⟨Val.num 2⟩ RAM4.new).step = Except.ok c1 ∧
      c1.B = ⟨Val.num 1⟩ :=
  cpu_B_never_written.1 (CPU.mk ⟨Val.num 1⟩ ⟨Val.num 1⟩ ⟨Val.num 2⟩ RAM4.new) 2 rfl
    (by decide)

/-- C17: the address decode collapses to one bit. For a word whose bits 2
and 3 are bits, `OR(word[3], AND(word[2], 1))` equals `word[2] OR word[3]`:
0 for the field 00 and 1 for 01, 10 and 11. For every state with the PC in
0..7, `step()` returns a state with the same `RAM[2]` and `RAM[3]`, and its
result does not depend on them (replacing them before the step gives the same
result with them replaced). In every reachable state both read
`[0,0,0,0]`. -/
theorem cpu_address_decode_one_bit :
    (∀ instr : List Val, (idx instr 2).IsBit → (idx instr 3).IsBit →
      OR (idx instr 3) (AND (idx instr 2) (Val.num 1)) = OR (idx instr 2) (idx instr 3) ∧
      (OR (idx instr 3) (AND (idx instr 2) (Val.num 1)) = Val.num 0
        ↔ idx instr 2 = Val.num 0 ∧ idx instr 3 = Val.num 0) ∧
      (OR (idx instr 3) (AND (idx instr 2) (Val.num 1)) = Val.num 1
        ↔ ¬ (idx instr 2 = Val.num 0 ∧ idx instr 3 = Val.num 0))) ∧
    (∀ (c : CPU) (n : Int), c.PC.read = Val.num n → 0 ≤ n ∧ n < 8 →
      ∃ c1, c.step = Except.ok c1 ∧
        c1.ram.mem 2 = c.ram.mem 2 ∧ c1.ram.mem 3 = c.ram.mem 3 ∧
        ∀ r2 r3 : Register4,
          CPU.step { c with ram := { c.ram with mem2 := r2, mem3 := r3 } }
            = Except.ok { c1 with ram := { c1.ram with mem2 := r2, mem3 := r3 } }) ∧
    (∀ c : CPU, c.Reachable →
      (c.ram.mem 2).read = [Val.num 0, Val.num 0, Val.num 0, Val.num 0] ∧
      (c.ram.mem 3).read = [Val.num 0, Val.num 0, Val.num 0, Val.num 0]) := by
  refine ⟨?_, ?_, ?_⟩
  · intro instr h2 h3
    rcases h2 with h2 | h2 <;> rcases h3 with h3 | h3 <;> rw [h2, h3] <;> decide
  · intro c n hpc hn
    rcases ROM8.read_cases n hn with ⟨-, h⟩ | ⟨-, h⟩ | ⟨-, h⟩ | ⟨-, h⟩
    · rw [← hpc] at h
      refine ⟨_, CPU.step_of_load c h, rfl, rfl, ?_⟩
      intro r2 r3
      exact (CPU.step_of_load { c with ram := { c.ram with mem2 := r2, mem3 := r3 } } h).trans
        rfl
    · rw [← hpc] at h
      refine ⟨_, CPU.step_of_add c h, rfl, rfl, ?_⟩
      intro r2 r3
      exact (CPU.step_of_add { c with ram := { c.ram with mem2 := r2, mem3 := r3 } } h).trans
        rfl
    · rw [← hpc] at h
      refine ⟨_, CPU.step_of_store c h, rfl, rfl, ?_⟩
      intro r2 r3
      exact (CPU.step_of_store { c with ram := { c.ram with mem2 := r2, mem3 := r3 } } h).trans
        rfl
    · rw [← hpc] at h
      refine ⟨_, CPU.step_of_xor c h, rfl, rfl, ?_⟩
      intro r2 r3
      exact (CPU.step_of_xor { c with ram := { c.ram with mem2 := r2, mem3 := r3 } } h).trans
        rfl
  · intro c h
    rcases CPU.reachable_cases c h with rfl | rfl | rfl <;> decide

/-- Instance of `cpu_address_decode_one_bit` at the STORE word, whose address
field is 01, and at a state with PC = 2. -/
theorem cpu_address_decode_one_bit_witness :
    OR (idx (List.map Val.num [0, 1, 0, 1, 0, 0, 0, 0]) 3)
        (AND (idx (List.map Val.num [0, 1, 0, 1, 0, 0, 0, 0]) 2) (Val.num 1))
      = OR (idx (List.map Val.num [0, 1, 0, 1, 0, 0, 0, 0]) 2)
          (idx (List.map Val.num [0, 1, 0, 1, 0, 0, 0, 0]) 3) ∧
    ∃ c1, (CPU.mk ⟨Val.num 1⟩ ⟨Val.num 0⟩ ⟨Val.num 2⟩ RAM4.new).step = Except.ok c1 ∧
      c1.ram.mem 2 = RAM4.new.mem 2 ∧ c1.ram.mem 3 = RAM4.new.mem 3 := by
  obtain ⟨c1, h1, h2, h3, -⟩ := cpu_address_decode_one_bit.2.1
    (CPU.mk ⟨Val.num 1⟩ ⟨Val.num 0⟩ ⟨Val.num 2⟩ RAM4.new) 2 rfl (by decide)
  exact ⟨(cpu_address_decode_one_bit.1 (List.map Val.num [0, 1, 0, 1, 0, 0, 0, 0])
    (by decide) (by decide)).1, c1, h1, h2, h3⟩

end ComputerJS
